import Mathlib

/-!
Verification of the astrogate star-path repository: a shallow embedding of
the core data model (`star.py`) and the reachability operations
(`astrogate.py`, class `NearbyStars`), together with theorems settling the
frozen claims about them.  Machine reals of the source are modelled by `ℝ`;
Python's runtime errors (StopIteration from a failed `next`, AttributeError,
AssertionError) are modelled by an explicit error type.
-/

namespace Astrogate

/-- Error kinds raised by the program: `notFound` models Python's
StopIteration escaping from a failed `next(...)` lookup, `attributeError`
models an AttributeError raised while executing, and `invalidInput` models
the AssertionError raised by `Star.__init__` for an unrecognized field
name. -/
inductive Err where
  | notFound
  | attributeError
  | invalidInput
deriving DecidableEq

/-- Star record from `star.py`.  The fields the core logic reads are the
seven identity fields (kept as optional strings, `none` being Python's
`None`) and the spatial fields `ra`, `dec`, `dist` (reals).  The remaining
catalog fields are carried but never read by the reachability core, so they
are omitted from the embedding. -/
structure Star where
  id : Option String := none
  hip : Option String := none
  hd : Option String := none
  hr : Option String := none
  gl : Option String := none
  bf : Option String := none
  proper : Option String := none
  ra : ℝ := 0
  dec : ℝ := 0
  dist : ℝ := 0

/-- Scanner behind Python `str.split()`: collects the maximal runs of
non-whitespace characters, dropping all whitespace.  The accumulator holds
the current word reversed. -/
def wordsAux : List Char → List Char → List (List Char)
  | [], acc => if acc.isEmpty then [] else [acc.reverse]
  | c :: cs, acc =>
    if c.isWhitespace then
      if acc.isEmpty then wordsAux cs [] else acc.reverse :: wordsAux cs []
    else wordsAux cs (c :: acc)

/-- Join words with single spaces, as Python `" ".join(...)`. -/
def joinWords : List (List Char) → List Char
  | [] => []
  | [w] => w
  | w :: ws => w ++ ' ' :: joinWords ws

/-- Python `" ".join(value.split())`: collapse every whitespace run to a
single space and strip leading and trailing whitespace. -/
def collapse (s : String) : String :=
  String.mk (joinWords (wordsAux s.data []))

/-- `Star.str_keys`: the identity fields, never parsed numerically. -/
def str_keys : List String := ["id", "hip", "hd", "hr", "gl", "bf", "proper"]

/-- `Star.name_preference`: preference order of the derived display name. -/
def name_preference : List String := ["proper", "bf", "gl", "hip", "hd", "hr"]

/-- `Star.valid_keys`: the recognized field names. -/
def valid_keys : List String :=
  ["id", "hip", "hd", "hr", "gl", "bf", "proper", "ra", "dec", "dist", "pmra",
   "pmdec", "rv", "mag", "absmag", "spect", "ci", "x", "y", "z", "vx", "vy",
   "vz", "rarad", "decrad", "pmrarad", "pmdecrad", "bayer", "flam", "con",
   "comp", "comp_primary", "base", "lum", "var", "var_min", "var_max"]

/-- The values of the six name-preference fields of a star, in the order of
`Star.name_preference` (`proper`, `bf`, `gl`, `hip`, `hd`, `hr`). -/
def Star.preference_values (s : Star) : List (Option String) :=
  [s.proper, s.bf, s.gl, s.hip, s.hd, s.hr]

/-- The `Star.name` property: the first truthy name-preference field, with
whitespace collapsed by `" ".join(value.split())`; `none` when every field
is `None` or the empty string (the Python loop falls through and the
property implicitly returns `None`). -/
def Star.name (s : Star) : Option String :=
  s.preference_values.findSome? fun v =>
    v.bind fun w => if w = "" then none else some (collapse w)

/-- Display name as the claim describing it states it: the first non-empty
field among `proper`, `bf`, `gl`, `hip`, `hd`, `hr`, with whitespace runs
collapsed; the absence value when all six are empty or absent. -/
def name_spec (s : Star) : Option String :=
  match s.preference_values.find? (fun v => !(v.getD "" == "")) with
  | some v => some (collapse (v.getD ""))
  | none => none

/-- All six name-preference fields of a star are empty or absent. -/
def identity_empty (s : Star) : Bool :=
  s.preference_values.all fun v => v.getD "" == ""

/-- Numeric value of a digit list, base 10. -/
def natOfDigits (cs : List Char) : ℕ :=
  cs.foldl (fun a c => 10 * a + (c.toNat - 48)) 0

/-- Modelled from the source's use of Python `float(value)` on CSV strings:
parses a plain decimal literal (optional sign, digits, at most one decimal
point) into a rational, and returns `none` exactly where `float` would
raise `ValueError`.  Exponents, infinities and surrounding whitespace are
not modelled; the claims only exercise plain literals and non-numeric
text. -/
def pyFloat (s : String) : Option ℚ :=
  let sc : ℚ × List Char :=
    match s.data with
    | '-' :: rest => (-1, rest)
    | '+' :: rest => (1, rest)
    | cs => (1, cs)
  let sgn := sc.1
  let body := sc.2
  if body.all (fun c => c.isDigit || c == '.') then
    match (body.filter (fun c => c == '.')).length with
    | 0 => if body.isEmpty then none else some (sgn * natOfDigits body)
    | 1 =>
      let ip := body.takeWhile fun c => !(c == '.')
      let fp := (body.dropWhile fun c => !(c == '.')).tail
      if ip.isEmpty && fp.isEmpty then none
      else some (sgn * ((natOfDigits ip : ℚ) + (natOfDigits fp : ℚ) / 10 ^ fp.length))
    | _ => none
  else none

/-- A stored field value of a star record: identity fields stay strings;
numeric fields hold the parsed number, or the original string when parsing
failed (the source catches the `ValueError` with `pass` and keeps the
string). -/
inductive Value where
  | str : String → Value
  | num : ℚ → Value
deriving DecidableEq

/-- Processing of one keyword argument by `Star.__init__`, after the key has
passed the `valid_keys` assertion: identity fields (`str_keys`) are stored
verbatim; any other field is parsed with `float`, the original string being
kept when parsing fails. -/
def init_field (key value : String) : Value :=
  if str_keys.contains key then .str value
  else
    match pyFloat value with
    | some x => .num x
    | none => .str value

/-- The field-processing loop of `Star.__init__`: walk the keyword
arguments in order, asserting each key is recognized (`invalidInput` models
the AssertionError) and converting each value with `init_field`. -/
def star_init : List (String × String) → Except Err (List (String × Value))
  | [] => .ok []
  | kv :: rest =>
    if valid_keys.contains kv.1 then
      match star_init rest with
      | .ok fields => .ok ((kv.1, init_field kv.1 kv.2) :: fields)
      | .error e => .error e
    else .error .invalidInput

/-- Python `math.radians`: degrees to radians. -/
noncomputable def radians (x : ℝ) : ℝ := x * Real.pi / 180

/-- `NearbyStars.distance`, read over the reals: spherical law of cosines on
the two stars' angles, the cosine clamped to `[-1, 1]`, and a `1e-12`
tolerance switching to the absolute difference of the catalog distances
when the lines of sight nearly coincide. -/
noncomputable def distance (origin target : Star) : ℝ :=
  let dec_a := radians origin.dec
  let dec_b := radians target.dec
  let ra_a := radians origin.ra
  let ra_b := radians target.ra
  let cos_c := Real.sin dec_a * Real.sin dec_b +
    Real.cos dec_a * Real.cos dec_b * Real.cos (ra_a - ra_b)
  let cos_c2 := min 1 (max (-1) cos_c)
  if |cos_c2 - 1| < 1e-12 then |origin.dist - target.dist|
  else
    Real.sqrt (origin.dist ^ 2 + target.dist ^ 2 -
      2 * origin.dist * target.dist * cos_c2)

/-- `NearbyStars.nearby_stars`, the adjacency builder.  When the origin's
`proper` field is `"Sol"` the database-supplied `dist` field of each
candidate is used; otherwise the distance is computed (the source binds it
to a local `distance` variable, inlined here) and candidates whose display
name equals the origin's are skipped. -/
noncomputable def nearby_stars (jump_parsecs : ℝ) (stars : List Star)
    (origin : Star) : List (ℝ × Star) :=
  if origin.proper = some "Sol" then
    stars.filterMap fun star =>
      if star.proper = some "Sol" then none
      else if star.dist ≤ jump_parsecs then some (star.dist, star) else none
  else
    stars.filterMap fun star =>
      if origin.name = star.name then none
      else if distance origin star ≤ jump_parsecs then
        some (distance origin star, star)
      else none

/-- The neighbor list the general Distance Calculator path of
`nearby_stars` would produce for an origin: the non-shortcut branch applied
unconditionally.  Used to state the claim comparing the reference-origin
shortcut with the general computation. -/
noncomputable def nearby_stars_general (jump_parsecs : ℝ) (stars : List Star)
    (origin : Star) : List (ℝ × Star) :=
  stars.filterMap fun star =>
    if origin.name = star.name then none
    else if distance origin star ≤ jump_parsecs then
      some (distance origin star, star)
    else none

/-- `NearbyStars.set_nearby_stars`: the per-star precomputed neighbor
lists, i.e. the assignment `star.nearby_stars = self.nearby_stars(star)`
for every catalog star. -/
noncomputable def set_nearby_stars (jump_parsecs : ℝ) (stars : List Star) :
    Star → List (ℝ × Star) :=
  fun star => nearby_stars jump_parsecs stars star

/-- `NearbyStars.explore_paths`, with explicit fuel bounding the recursion
(the source recurses without bound; every claim is settled at sufficient
fuel, and zero fuel returns the accumulated paths unchanged).  The current
star is the last entry of `path`; its neighbor list is recomputed with
`nearby_stars`, exactly as the source's `self.nearby_stars(current_star)`
does.  The mutable `all_paths` and the add/remove discipline on
`visited_stars` are rendered by threading the accumulator through the loop
and extending the visited list only in the recursive call. -/
noncomputable def explore_paths (jump_parsecs : ℝ) (stars : List Star) :
    ℕ → List Star → List (List Star) → List (Option String) → List (List Star)
  | 0, _, all_paths, _ => all_paths
  | fuel + 1, path, all_paths, visited_stars =>
    match path.getLast? with
    | none => all_paths
    | some current_star =>
      match nearby_stars jump_parsecs stars current_star with
      | [] => all_paths ++ [path]
      | nb :: rest =>
        (nb :: rest).foldl
          (fun acc p =>
            if p.2.name ∈ visited_stars then acc
            else
              explore_paths jump_parsecs stars fuel (path ++ [p.2]) acc
                (p.2.name :: visited_stars))
          all_paths

/-- `NearbyStars.star_paths`: exhaustive enumeration from the reference
origin, which is looked up by its `proper` field; `notFound` models the
StopIteration of the failed `next(...)`. -/
noncomputable def star_paths (jump_parsecs : ℝ) (stars : List Star)
    (fuel : ℕ) : Except Err (List (List Star)) :=
  match stars.find? (fun s => s.proper == some "Sol") with
  | none => .error .notFound
  | some sol =>
    .ok (explore_paths jump_parsecs stars fuel [sol] [] [sol.name])

/-- `NearbyStars.explore_path` as the source actually executes.  The base
case compares display names and returns the one-element path.  Otherwise
the source iterates over the `(distance, star)` tuples of the precomputed
neighbor list and immediately evaluates `.name` on the tuple itself (the
loop variable is never unpacked), which raises AttributeError: so a
non-empty neighbor list yields the error, and an empty one falls through
to `return None`. -/
def explore_path (nbrs : Star → List (ℝ × Star)) (origin target : Star)
    (visited : List (Option String)) : Except Err (Option (List Star)) :=
  if origin.name = target.name then .ok (some [origin])
  else
    match nbrs origin with
    | [] => .ok none
    | _ :: _ => .error .attributeError

/-- `NearbyStars.explore_path` with the evident tuple unpacking applied
(destructuring the `(distance, star)` pairs the way the sibling
`explore_paths` loop does): mark the origin's name visited, try each
not-yet-visited neighbor in list order passing a copy of the visited set,
and return the first successful branch prefixed with the origin; fuel
bounds the recursion. -/
def explore_path_fixed (nbrs : Star → List (ℝ × Star)) :
    ℕ → Star → Star → List (Option String) → Option (List Star)
  | 0, _, _, _ => none
  | fuel + 1, origin, target, visited =>
    if origin.name = target.name then some [origin]
    else
      (nbrs origin).findSome? fun p =>
        if p.2.name ∈ visited.insert origin.name then none
        else
          (explore_path_fixed nbrs fuel p.2 target
              (visited.insert origin.name)).map
            fun path => origin :: path

/-- `NearbyStars.star_path`: look up the origin and target records by
display name (`notFound` models the StopIteration of a failed `next`) and
run the point-to-point search with a fresh visited set; a found path is
reported as its stars' display names, as the source prints it. -/
def star_path (stars : List Star) (nbrs : Star → List (ℝ × Star))
    (origin_name target_name : String) :
    Except Err (Option (List (Option String))) :=
  match stars.find? (fun s => s.name == some origin_name) with
  | none => .error .notFound
  | some origin =>
    match stars.find? (fun s => s.name == some target_name) with
    | none => .error .notFound
    | some target =>
      (explore_path nbrs origin target []).map
        (Option.map (List.map Star.name))

/-- `star_path` running the tuple-unpacking-fixed point-to-point search. -/
def star_path_fixed (stars : List Star) (nbrs : Star → List (ℝ × Star))
    (fuel : ℕ) (origin_name target_name : String) :
    Except Err (Option (List (Option String))) :=
  match stars.find? (fun s => s.name == some origin_name) with
  | none => .error .notFound
  | some origin =>
    match stars.find? (fun s => s.name == some target_name) with
    | none => .error .notFound
    | some target =>
      .ok ((explore_path_fixed nbrs fuel origin target []).map
        (List.map Star.name))

/-- A catalog state after the build phase: the retained star records
together with the per-star precomputed neighbor lists (the
`nearby_stars` attribute each record carries). -/
structure CatalogState where
  jump_parsecs : ℝ
  stars : List Star
  nbrs : Star → List (ℝ × Star)

/-- Exhaustive enumeration over a catalog state: `star_paths` reads the
star records and recomputes adjacency with `nearby_stars`. -/
noncomputable def run_star_paths (st : CatalogState) (fuel : ℕ) :
    Except Err (List (List Star)) :=
  star_paths st.jump_parsecs st.stars fuel

/-- Point-to-point search over a catalog state: `star_path` reads the
precomputed neighbor lists. -/
def run_star_path (st : CatalogState) (origin_name target_name : String) :
    Except Err (Option (List (Option String))) :=
  star_path st.stars st.nbrs origin_name target_name

/-- Relation between corresponding stars of two catalog states: equal
display names and name-identical precomputed neighbor lists. -/
def names_agree (nb1 nb2 : Star → List (ℝ × Star)) (s u : Star) : Prop :=
  s.name = u.name ∧
    (nb1 s).map (fun p => p.2.name) = (nb2 u).map (fun p => p.2.name)

/-- Pointwise lifting of a relation to optional values. -/
def optionRel {α β : Type} (R : α → β → Prop) : Option α → Option β → Prop
  | some a, some b => R a b
  | none, none => True
  | _, _ => False

/-- The reference origin of the section-8 scenario: "Sol" at the reference
point. -/
noncomputable def solS : Star :=
  { proper := some "Sol", ra := 0, dec := 0, dist := 0 }

/-- Section-8 scenario star B: same line of sight as Sol, 1.5 parsecs
out. -/
noncomputable def bS : Star :=
  { proper := some "B", ra := 0, dec := 0, dist := 1.5 }

/-- Section-8 scenario star C: 90 degrees away in right ascension, 1.5
parsecs out. -/
noncomputable def cS : Star :=
  { proper := some "C", ra := 90, dec := 0, dist := 1.5 }

/-- The three-star catalog of the specification's section 8, in catalog
order (ascending catalog distance). -/
noncomputable def threeStars : List Star := [solS, bS, cS]

/-- Precomputed neighbor lists of the section-8 catalog at jump range 2. -/
noncomputable def threeNbrs : Star → List (ℝ × Star) :=
  set_nearby_stars 2 threeStars

/-- A star named like `bS` but with a different catalog distance (outside
the jump range), for comparing catalogs that agree on names only. -/
noncomputable def bT : Star :=
  { proper := some "B", ra := 0, dec := 0, dist := 10 }

/-- A star named like `solS` but with different coordinates. -/
noncomputable def solT : Star :=
  { proper := some "Sol", ra := 1, dec := 2, dist := 5 }

/-- Two-star catalog: Sol plus B within jump range. -/
noncomputable def starsAB : List Star := [solS, bS]

/-- Two-star catalog with the same display names as `starsAB` but B moved
out of jump range. -/
noncomputable def starsAT : List Star := [solS, bT]

/-- Empty precomputed-neighbor assignment. -/
def nbE : Star → List (ℝ × Star) := fun _ => []

/-- Catalog state over `starsAB` with precomputed lists `nbE`. -/
noncomputable def stateA : CatalogState :=
  { jump_parsecs := 2, stars := starsAB, nbrs := nbE }

/-- Catalog state over `starsAT`, names and precomputed lists identical to
`stateA`, coordinates different. -/
noncomputable def stateB : CatalogState :=
  { jump_parsecs := 2, stars := starsAT, nbrs := nbE }

/-- Two distinct records sharing the display name "X" at identical
coordinates. -/
noncomputable def aX : Star :=
  { id := some "1", proper := some "X", ra := 0, dec := 0, dist := 1 }

/-- Second record with display name "X", distinguished by its catalog
id. -/
noncomputable def bX : Star :=
  { id := some "2", proper := some "X", ra := 0, dec := 0, dist := 1 }

/-- A star at the celestial north pole. -/
noncomputable def poleA : Star :=
  { proper := some "P", ra := 0, dec := 90, dist := 1 }

/-- A second star at the pole with a different right ascension but the
same catalog distance. -/
noncomputable def poleB : Star :=
  { proper := some "Q", ra := 10, dec := 90, dist := 1 }

/-- A star with no identity fields at all. -/
def emptyStar : Star := {}

/-- A second star with empty name-preference fields (its catalog id is not
part of the name preference). -/
def emptyStar2 : Star := { id := some "7" }

/-! Evaluation lemmas for the concrete stars' display names. -/

theorem solS_name : solS.name = some "Sol" := rfl

theorem bS_name : bS.name = some "B" := rfl

theorem cS_name : cS.name = some "C" := rfl

theorem bT_name : bT.name = some "B" := rfl

theorem aX_name : aX.name = some "X" := rfl

theorem bX_name : bX.name = some "X" := rfl

/-- A star whose `proper` field is exactly "Sol" has display name "Sol". -/
theorem name_of_proper_sol (s : Star) (h : s.proper = some "Sol") :
    s.name = some "Sol" := by
  unfold Star.name Star.preference_values
  rw [h]
  rfl

/-! Geometry lemmas about `distance`. -/

theorem radians_zero : radians 0 = 0 := by
  unfold radians; ring

theorem radians_ninety : radians 90 = Real.pi / 2 := by
  unfold radians; ring

/-- Two stars at the same angular position are at the absolute difference
of their catalog distances: the clamped cosine is exactly 1, so the
tolerance branch fires. -/
theorem distance_coincident (a b : Star) (hra : a.ra = b.ra)
    (hdec : a.dec = b.dec) : distance a b = |a.dist - b.dist| := by
  simp only [distance]
  rw [hra, hdec, sub_self, Real.cos_zero, mul_one]
  have h1 : Real.sin (radians b.dec) * Real.sin (radians b.dec) +
      Real.cos (radians b.dec) * Real.cos (radians b.dec) = 1 := by
    rw [← Real.sin_sq_add_cos_sq (radians b.dec)]; ring
  rw [h1]
  norm_num

/-- From an origin at the reference point (catalog distance 0), the
computed distance to any star with non-negative catalog distance is that
star's catalog distance, whichever branch of the tolerance check is
taken. -/
theorem distance_from_origin (origin s : Star) (h0 : origin.dist = 0)
    (hs : 0 ≤ s.dist) : distance origin s = s.dist := by
  simp only [distance]
  split
  · rw [h0, zero_sub, abs_neg, abs_of_nonneg hs]
  · rw [h0]
    rw [show (0 : ℝ) ^ 2 + s.dist ^ 2 - 2 * 0 * s.dist *
        (min 1 (max (-1) (Real.sin (radians origin.dec) * Real.sin (radians s.dec) +
          Real.cos (radians origin.dec) * Real.cos (radians s.dec) *
            Real.cos (radians origin.ra - radians s.ra)))) = s.dist ^ 2 by ring]
    exact Real.sqrt_sq hs

theorem sqrt_45_not_le_two : ¬ Real.sqrt 4.5 ≤ 2 := by
  rw [not_le]
  exact (Real.lt_sqrt (by norm_num)).mpr (by norm_num)

/-- Distance between the section-8 stars B and C: the angular separation is
90 degrees, so the general law-of-cosines branch gives `√4.5`. -/
theorem dist_b_c : distance bS cS = Real.sqrt 4.5 := by
  simp only [distance, bS, cS]
  norm_num [radians_zero, radians_ninety, Real.sin_zero, Real.cos_zero,
    Real.cos_pi_div_two]

/-- Distance from the section-8 star C back to B, by the same branch. -/
theorem dist_c_b : distance cS bS = Real.sqrt 4.5 := by
  simp only [distance, cS, bS]
  norm_num [radians_zero, radians_ninety, Real.sin_zero, Real.cos_zero,
    Real.cos_pi_div_two]

/-- Distance from B to Sol in the scenario: coincident line of sight. -/
theorem dist_b_sol : distance bS solS = 1.5 := by
  rw [distance_coincident bS solS rfl rfl]
  show |(1.5 : ℝ) - 0| = 1.5
  norm_num

/-- Distance from C to Sol in the scenario: 90 degrees apart but the origin
term vanishes, so the general branch gives `√(1.5²)` = 1.5. -/
theorem dist_c_sol : distance cS solS = 1.5 := by
  simp only [distance, cS, solS]
  norm_num [radians_zero, radians_ninety, Real.sin_zero, Real.cos_zero,
    Real.cos_pi_div_two]
  rw [show (9 : ℝ) = 3 ^ 2 by norm_num, show (4 : ℝ) = 2 ^ 2 by norm_num,
    Real.sqrt_sq (by norm_num : (0:ℝ) ≤ 3), Real.sqrt_sq (by norm_num : (0:ℝ) ≤ 2)]

/-! Evaluation of the adjacency builder on the concrete catalogs. -/

/-- Section-8 neighbor list of Sol: the database shortcut admits B and C. -/
theorem nb3_sol : nearby_stars 2 threeStars solS = [(1.5, bS), (1.5, cS)] := by
  unfold nearby_stars threeStars
  rw [if_pos (show solS.proper = some "Sol" from rfl)]
  simp only [List.filterMap_cons, List.filterMap_nil]
  rw [if_pos (show solS.proper = some "Sol" from rfl),
    if_neg (show ¬ bS.proper = some "Sol" by decide),
    if_neg (show ¬ cS.proper = some "Sol" by decide),
    if_pos (show bS.dist ≤ (2 : ℝ) by show (1.5 : ℝ) ≤ 2; norm_num),
    if_pos (show cS.dist ≤ (2 : ℝ) by show (1.5 : ℝ) ≤ 2; norm_num)]
  rfl

/-- Section-8 neighbor list of B: Sol is within range, C is not. -/
theorem nb3_b : nearby_stars 2 threeStars bS = [(1.5, solS)] := by
  unfold nearby_stars threeStars
  rw [if_neg (show ¬ bS.proper = some "Sol" by decide)]
  simp only [List.filterMap_cons, List.filterMap_nil]
  rw [if_neg (show ¬ bS.name = solS.name by decide),
    if_neg (show ¬ bS.name = cS.name by decide),
    dist_b_sol, dist_b_c,
    if_pos (show (1.5 : ℝ) ≤ 2 by norm_num),
    if_neg sqrt_45_not_le_two]
  simp

/-- Section-8 neighbor list of C: Sol is within range, B is not. -/
theorem nb3_c : nearby_stars 2 threeStars cS = [(1.5, solS)] := by
  unfold nearby_stars threeStars
  rw [if_neg (show ¬ cS.proper = some "Sol" by decide)]
  simp only [List.filterMap_cons, List.filterMap_nil]
  rw [if_neg (show ¬ cS.name = solS.name by decide),
    if_neg (show ¬ cS.name = bS.name by decide),
    dist_c_sol, dist_c_b,
    if_pos (show (1.5 : ℝ) ≤ 2 by norm_num),
    if_neg sqrt_45_not_le_two]
  simp

/-- Neighbor list of Sol in the two-star catalog `starsAB`. -/
theorem nbAB_sol : nearby_stars 2 starsAB solS = [(1.5, bS)] := by
  unfold nearby_stars starsAB
  rw [if_pos (show solS.proper = some "Sol" from rfl)]
  simp only [List.filterMap_cons, List.filterMap_nil]
  rw [if_pos (show solS.proper = some "Sol" from rfl),
    if_neg (show ¬ bS.proper = some "Sol" by decide),
    if_pos (show bS.dist ≤ (2 : ℝ) by show (1.5 : ℝ) ≤ 2; norm_num)]
  rfl

/-- Neighbor list of B in the two-star catalog `starsAB`. -/
theorem nbAB_b : nearby_stars 2 starsAB bS = [(1.5, solS)] := by
  unfold nearby_stars starsAB
  rw [if_neg (show ¬ bS.proper = some "Sol" by decide)]
  simp only [List.filterMap_cons, List.filterMap_nil]
  rw [if_neg (show ¬ bS.name = solS.name by decide),
    dist_b_sol,
    if_pos (show (1.5 : ℝ) ≤ 2 by norm_num)]
  simp

/-- Neighbor list of Sol in `starsAT`: the renamed B sits outside the jump
range, so the list is empty. -/
theorem nbAT_sol : nearby_stars 2 starsAT solS = [] := by
  unfold nearby_stars starsAT
  rw [if_pos (show solS.proper = some "Sol" from rfl)]
  simp only [List.filterMap_cons, List.filterMap_nil, solS, bT]
  norm_num

/-- Neighbor list of Sol in the one-star catalog. -/
theorem nbSol_single : nearby_stars 2 [solS] solS = [] := by
  unfold nearby_stars
  rw [if_pos (show solS.proper = some "Sol" from rfl)]
  simp [solS]

/-- Neighbor list of `aX` in the duplicate-name catalog: both records carry
the display name "X", so both are skipped by the name-equality exclusion. -/
theorem nbX : nearby_stars 2 [aX, bX] aX = [] := by
  unfold nearby_stars
  rw [if_neg (show ¬ aX.proper = some "Sol" by decide)]
  simp [aX_name, bX_name]

/-! Unfolding equations for the fueled searches. -/

theorem explore_paths_zero (jp : ℝ) (stars : List Star) (path : List Star)
    (all_paths : List (List Star)) (visited : List (Option String)) :
    explore_paths jp stars 0 path all_paths visited = all_paths := rfl

theorem explore_paths_succ (jp : ℝ) (stars : List Star) (fuel : ℕ)
    (path : List Star) (all_paths : List (List Star))
    (visited : List (Option String)) :
    explore_paths jp stars (fuel + 1) path all_paths visited =
      match path.getLast? with
      | none => all_paths
      | some current_star =>
        match nearby_stars jp stars current_star with
        | [] => all_paths ++ [path]
        | nb :: rest =>
          (nb :: rest).foldl
            (fun acc p =>
              if p.2.name ∈ visited then acc
              else
                explore_paths jp stars fuel (path ++ [p.2]) acc
                  (p.2.name :: visited))
            all_paths := rfl

theorem explore_path_fixed_succ (nbrs : Star → List (ℝ × Star)) (fuel : ℕ)
    (origin target : Star) (visited : List (Option String)) :
    explore_path_fixed nbrs (fuel + 1) origin target visited =
      if origin.name = target.name then some [origin]
      else
        (nbrs origin).findSome? fun p =>
          if p.2.name ∈ visited.insert origin.name then none
          else
            (explore_path_fixed nbrs fuel p.2 target
                (visited.insert origin.name)).map
              fun path => origin :: path := rfl

theorem findSome?_cons_eq {α β : Type} (f : α → Option β) (a : α)
    (l : List α) :
    (a :: l).findSome? f =
      match f a with
      | some b => some b
      | none => l.findSome? f := rfl

theorem getLast?_single {α : Type} (a : α) : ([a] : List α).getLast? = some a := rfl

theorem getLast?_pair {α : Type} (a b : α) :
    ([a, b] : List α).getLast? = some b := rfl

/-! Evaluation of the exhaustive enumeration on the concrete catalogs. -/

/-- On `starsAB` the enumeration records nothing: the only branch reaches B,
whose sole neighbor Sol is already visited, so the branch dies without
appending. -/
theorem spAB : star_paths 2 starsAB 3 = .ok [] := by
  show star_paths 2 starsAB (0 + 1 + 1 + 1) = .ok []
  unfold star_paths
  rw [show starsAB.find? (fun s => s.proper == some "Sol") = some solS from rfl]
  simp [explore_paths_succ, explore_paths_zero, nbAB_sol, nbAB_b, bS_name,
    solS_name, getLast?_single, getLast?_pair]

/-- On `starsAT` (same names, different coordinates) the enumeration
records the one-element path, because Sol's recomputed neighbor list is
empty. -/
theorem spAT : star_paths 2 starsAT 3 = .ok [[solS]] := by
  show star_paths 2 starsAT (0 + 1 + 1 + 1) = .ok [[solS]]
  unfold star_paths
  rw [show starsAT.find? (fun s => s.proper == some "Sol") = some solS from rfl]
  simp [explore_paths_succ, explore_paths_zero, nbAT_sol, getLast?_single]

/-- On the one-star catalog the enumeration records the path `[Sol]`. -/
theorem spSol : star_paths 2 [solS] 1 = .ok [[solS]] := by
  show star_paths 2 [solS] (0 + 1) = .ok [[solS]]
  unfold star_paths
  rw [show ([solS] : List Star).find? (fun s => s.proper == some "Sol") =
    some solS from rfl]
  simp [explore_paths_succ, nbSol_single, getLast?_single]

/-! Accumulator lemmas for the enumeration's fold. -/

/-- Anything in the result of a list-accumulating fold is in the initial
accumulator or satisfies the invariant the step function maintains. -/
theorem foldl_acc_mem {α β : Type} (f : List α → β → List α) (Inv : α → Prop)
    (hf : ∀ acc b x, x ∈ f acc b → x ∈ acc ∨ Inv x) :
    ∀ (l : List β) (acc : List α) (x : α),
      x ∈ l.foldl f acc → x ∈ acc ∨ Inv x := by
  intro l
  induction l with
  | nil => intro acc x hx; exact Or.inl hx
  | cons b bs ih =>
    intro acc x hx
    rw [List.foldl_cons] at hx
    rcases ih (f acc b) x hx with h | h
    · exact hf acc b x h
    · exact Or.inr h

/-- A fold whose step fixes the accumulator on every element of the list
returns the accumulator unchanged. -/
theorem foldl_fixed {α β : Type} (f : α → β → α) :
    ∀ (l : List β) (a : α), (∀ b ∈ l, ∀ a2, f a2 b = a2) →
      l.foldl f a = a := by
  intro l
  induction l with
  | nil => intro a _; rfl
  | cons b bs ih =>
    intro a h
    rw [List.foldl_cons, h b (List.mem_cons_self b bs)]
    exact ih a fun x hx a2 => h x (List.mem_cons_of_mem b hx) a2

/-- Paths accumulated by `explore_paths` beyond the incoming `all_paths`
end at a star whose recomputed neighbor list is empty. -/
theorem explore_paths_invariant (jp : ℝ) (stars : List Star) :
    ∀ (fuel : ℕ) (path : List Star) (all_paths : List (List Star))
      (visited : List (Option String)) (p : List Star),
      p ∈ explore_paths jp stars fuel path all_paths visited →
      p ∈ all_paths ∨
        ∃ c, p.getLast? = some c ∧ nearby_stars jp stars c = [] := by
  intro fuel
  induction fuel with
  | zero => intro path aps visited p hp; exact Or.inl hp
  | succ fuel ih =>
    intro path aps visited p hp
    rw [explore_paths_succ] at hp
    cases hl : path.getLast? with
    | none => simp only [hl] at hp; exact Or.inl hp
    | some current =>
      simp only [hl] at hp
      cases e : nearby_stars jp stars current with
      | nil =>
        simp only [e] at hp
        rcases List.mem_append.mp hp with h | h
        · exact Or.inl h
        · rw [List.mem_singleton] at h
          subst h
          exact Or.inr ⟨current, hl, e⟩
      | cons nb rest =>
        simp only [e] at hp
        refine foldl_acc_mem _
          (fun q => ∃ c, q.getLast? = some c ∧ nearby_stars jp stars c = [])
          (fun acc b x hx => ?_) (nb :: rest) aps p hp
        by_cases hv : b.2.name ∈ visited
        · rw [if_pos hv] at hx; exact Or.inl hx
        · rw [if_neg hv] at hx
          exact ih (path ++ [b.2]) acc (b.2.name :: visited) x hx

/-- C10: every path recorded by the exhaustive enumeration ends at a star
whose (recomputed) neighbor list is empty, and a branch whose current star
has a non-empty neighbor list with every neighbor's name already in the
visited set terminates without recording the path-so-far. -/
theorem c10_dead_end_invariant (jp : ℝ) (stars : List Star) (fuel : ℕ)
    (res : List (List Star)) (hres : star_paths jp stars fuel = .ok res) :
    (∀ p ∈ res, ∃ c, p.getLast? = some c ∧ nearby_stars jp stars c = []) ∧
    (∀ (fuel2 : ℕ) (path : List Star) (all_paths : List (List Star))
        (visited : List (Option String)) (current : Star),
      path.getLast? = some current →
      nearby_stars jp stars current ≠ [] →
      (∀ q ∈ nearby_stars jp stars current, q.2.name ∈ visited) →
      explore_paths jp stars fuel2 path all_paths visited = all_paths) := by
  constructor
  · intro p hp
    unfold star_paths at hres
    cases e : stars.find? (fun s => s.proper == some "Sol") with
    | none => simp [e] at hres
    | some sol =>
      simp only [e, Except.ok.injEq] at hres
      subst hres
      rcases explore_paths_invariant jp stars fuel [sol] [] [sol.name] p hp
        with h | h
      · cases h
      · exact h
  · intro fuel2 path aps visited current hl hne hall
    cases fuel2 with
    | zero => rfl
    | succ f =>
      rw [explore_paths_succ]
      simp only [hl]
      cases e : nearby_stars jp stars current with
      | nil => exact absurd e hne
      | cons nb rest =>
        refine foldl_fixed _ (nb :: rest) aps fun b hb a2 => ?_
        rw [if_pos (hall b (by rw [e]; exact hb))]

/-- Witness for the dead-end invariant: on the one-star catalog the
recorded path `[Sol]` indeed ends at a star with an empty neighbor list,
and on `starsAB` a fold step at star B (whose only neighbor Sol is
visited) leaves the accumulator empty. -/
theorem c10_witness :
    (∃ c, ([solS] : List Star).getLast? = some c ∧
      nearby_stars 2 [solS] c = []) ∧
    explore_paths 2 starsAB 1 [solS, bS] [] [some "B", some "Sol"] = [] := by
  constructor
  · exact (c10_dead_end_invariant 2 [solS] 1 [[solS]] spSol).1 [solS]
      (List.mem_singleton.mpr rfl)
  · refine (c10_dead_end_invariant 2 starsAB 3 [] spAB).2 1 [solS, bS] []
      [some "B", some "Sol"] bS (getLast?_pair solS bS) ?_ ?_
    · rw [nbAB_b]; exact List.cons_ne_nil _ _
    · intro q hq
      rw [nbAB_b, List.mem_singleton] at hq
      subst hq
      simp [solS_name]

/-! Coordinate independence of the point-to-point search. -/

/-- Lockstep behaviour of display-name lookup over name-related catalogs. -/
theorem find?_rel {R : Star → Star → Prop}
    (hname : ∀ s u, R s u → s.name = u.name) (nm : String) :
    ∀ {l1 l2 : List Star}, List.Forall₂ R l1 l2 →
      optionRel R (l1.find? fun s => s.name == some nm)
        (l2.find? fun s => s.name == some nm) := by
  intro l1 l2 h
  induction h with
  | nil => exact trivial
  | cons hR htail ih =>
    rename_i a b l1 l2
    by_cases hb : a.name = some nm
    · rw [List.find?_cons_of_pos _ (by simp [hb]),
        List.find?_cons_of_pos _ (by simp [← hname a b hR, hb])]
      exact hR
    · rw [List.find?_cons_of_neg _ (by simp [hb]),
        List.find?_cons_of_neg _ (by simp [← hname a b hR, hb])]
      exact ih

/-- The name image of a point-to-point search result depends only on
display names and the name image of the precomputed neighbor lists. -/
theorem explore_path_names_congr (nb1 nb2 : Star → List (ℝ × Star))
    (o1 o2 t1 t2 : Star) (ho : o1.name = o2.name) (ht : t1.name = t2.name)
    (hn : (nb1 o1).map (fun p => p.2.name) =
      (nb2 o2).map (fun p => p.2.name)) :
    (explore_path nb1 o1 t1 []).map (Option.map (List.map Star.name)) =
      (explore_path nb2 o2 t2 []).map (Option.map (List.map Star.name)) := by
  unfold explore_path
  by_cases h : o1.name = t1.name
  · rw [if_pos h, if_pos (by rw [← ho, ← ht]; exact h)]
    show Except.ok (some [o1.name]) = Except.ok (some [o2.name])
    rw [ho]
  · rw [if_neg h, if_neg (by rw [← ho, ← ht]; exact h)]
    cases e1 : nb1 o1 with
    | nil =>
      cases e2 : nb2 o2 with
      | nil => rfl
      | cons y ys => rw [e1, e2] at hn; simp at hn
    | cons x xs =>
      cases e2 : nb2 o2 with
      | nil => rw [e1, e2] at hn; simp at hn
      | cons y ys => rfl

/-- C2 (amended): the point-to-point search reads only display names and
the precomputed neighbor lists — two catalog states whose corresponding
stars agree on display names and on the name image of their precomputed
neighbor lists give identical `star_path` results (the exhaustive
enumeration, by contrast, recomputes distances; see the
counterexample). -/
theorem c2_point_to_point_coordinate_free (st1 st2 : CatalogState)
    (origin_name target_name : String)
    (h : List.Forall₂ (names_agree st1.nbrs st2.nbrs) st1.stars st2.stars) :
    run_star_path st1 origin_name target_name =
      run_star_path st2 origin_name target_name := by
  unfold run_star_path star_path
  have hrel : ∀ s u, names_agree st1.nbrs st2.nbrs s u → s.name = u.name :=
    fun s u hsu => hsu.1
  have ho := find?_rel hrel origin_name h
  have ht := find?_rel hrel target_name h
  cases e1 : st1.stars.find? (fun s => s.name == some origin_name) with
  | none =>
    cases e2 : st2.stars.find? (fun s => s.name == some origin_name) with
    | none => rfl
    | some o2 => rw [e1, e2] at ho; exact absurd ho (by simp [optionRel])
  | some o1 =>
    cases e2 : st2.stars.find? (fun s => s.name == some origin_name) with
    | none => rw [e1, e2] at ho; exact absurd ho (by simp [optionRel])
    | some o2 =>
      rw [e1, e2] at ho
      cases e3 : st1.stars.find? (fun s => s.name == some target_name) with
      | none =>
        cases e4 : st2.stars.find? (fun s => s.name == some target_name) with
        | none => rfl
        | some t2 => rw [e3, e4] at ht; exact absurd ht (by simp [optionRel])
      | some t1 =>
        cases e4 : st2.stars.find? (fun s => s.name == some target_name) with
        | none => rw [e3, e4] at ht; exact absurd ht (by simp [optionRel])
        | some t2 =>
          rw [e3, e4] at ht
          exact explore_path_names_congr st1.nbrs st2.nbrs o1 o2 t1 t2
            ho.1 ht.1 ho.2

/-- C2 is false as stated: `stateA` and `stateB` have identical display
names and identical precomputed neighbor lists, yet exhaustive enumeration
recomputes distances from the differing coordinates and produces different
result sets. -/
theorem c2_counterexample :
    stateA.stars.map Star.name = stateB.stars.map Star.name ∧
    stateA.nbrs = stateB.nbrs ∧
    run_star_paths stateA 3 ≠ run_star_paths stateB 3 := by
  refine ⟨rfl, rfl, ?_⟩
  show star_paths 2 starsAB 3 ≠ star_paths 2 starsAT 3
  rw [spAB, spAT]
  simp

/-- Concrete instantiation of the point-to-point coordinate-independence
theorem: two one-star catalogs agreeing only in names and precomputed
lists give the same search result. -/
theorem c2_witness :
    run_star_path { jump_parsecs := 2, stars := [solS], nbrs := nbE }
        "Sol" "Sol" =
      run_star_path { jump_parsecs := 2, stars := [solT], nbrs := nbE }
        "Sol" "Sol" :=
  c2_point_to_point_coordinate_free
    { jump_parsecs := 2, stars := [solS], nbrs := nbE }
    { jump_parsecs := 2, stars := [solT], nbrs := nbE } "Sol" "Sol"
    (List.Forall₂.cons ⟨rfl, rfl⟩ List.Forall₂.nil)

/-- C8: point-to-point search from a star to itself returns the
single-element path of that star: the base case fires before any neighbor
list is consulted, for any precomputed lists whatsoever. -/
theorem c8_self_path (stars : List Star) (nbrs : Star → List (ℝ × Star))
    (x : String) (r : Star)
    (h : stars.find? (fun s => s.name == some x) = some r) :
    star_path stars nbrs x x = .ok (some [some x]) := by
  unfold star_path
  rw [h]
  have hr : r.name = some x := by
    have hp := List.find?_some h
    simpa using hp
  show (explore_path nbrs r r []).map (Option.map (List.map Star.name)) =
    .ok (some [some x])
  unfold explore_path
  rw [if_pos rfl]
  show Except.ok (some [r.name]) = Except.ok (some [some x])
  rw [hr]

/-- Witness: the self-path of Sol in the one-star catalog. -/
theorem c8_witness :
    star_path [solS] nbE "Sol" "Sol" = .ok (some [some "Sol"]) :=
  c8_self_path [solS] nbE "Sol" solS rfl

/-- C4: a failed display-name lookup of the origin or of the target makes
the point-to-point search fail with `notFound` and no partial result, and
the exhaustive enumeration fails with `notFound` when no record's display
name is "Sol" (a record with `proper` exactly "Sol" would have display
name "Sol", so the `proper`-keyed lookup also fails). -/
theorem c4_not_found (jp : ℝ) (fuel : ℕ) (stars1 stars2 stars3 : List Star)
    (nbrs1 nbrs2 : Star → List (ℝ × Star)) (o1 t1 o2 t2 : String) :
    ((∀ s ∈ stars1, ¬ s.name = some o1) →
      star_path stars1 nbrs1 o1 t1 = .error .notFound) ∧
    ((∀ s ∈ stars2, ¬ s.name = some t2) →
      star_path stars2 nbrs2 o2 t2 = .error .notFound) ∧
    ((∀ s ∈ stars3, ¬ s.name = some "Sol") →
      star_paths jp stars3 fuel = .error .notFound) := by
  refine ⟨?_, ?_, ?_⟩
  · intro h
    unfold star_path
    rw [List.find?_eq_none.mpr fun s hs => by simpa using h s hs]
  · intro h
    unfold star_path
    cases e : stars2.find? (fun s => s.name == some o2) with
    | none => rfl
    | some origin =>
      rw [List.find?_eq_none.mpr fun s hs => by simpa using h s hs]
  · intro h
    unfold star_paths
    rw [List.find?_eq_none.mpr fun s hs => by
      simp only [beq_iff_eq]
      exact fun hp => h s hs (name_of_proper_sol s hp)]

/-! Reference-origin shortcut equivalence. -/

/-- filterMap respects functions that agree on the list's members. -/
theorem filterMap_congr_mem {α β : Type} (l : List α) (f g : α → Option β)
    (h : ∀ x ∈ l, f x = g x) : l.filterMap f = l.filterMap g := by
  induction l with
  | nil => rfl
  | cons a as ih =>
    rw [List.filterMap_cons, List.filterMap_cons,
      h a (List.mem_cons_self a as),
      ih fun x hx => h x (List.mem_cons_of_mem a hx)]

/-- C5: for a genuine reference-origin record (`proper` exactly "Sol",
catalog distance 0) over candidates with non-negative catalog distances
none of which wrongly carries the display name "Sol", the database
shortcut of the adjacency builder agrees exactly — entry by entry,
distances included — with the general Distance Calculator path. -/
theorem c5_shortcut_equivalence (jp : ℝ) (stars : List Star) (origin : Star)
    (hp : origin.proper = some "Sol") (h0 : origin.dist = 0)
    (hnn : ∀ s ∈ stars, 0 ≤ s.dist)
    (hname : ∀ s ∈ stars, s.name = some "Sol" → s.proper = some "Sol") :
    nearby_stars jp stars origin = nearby_stars_general jp stars origin := by
  unfold nearby_stars nearby_stars_general
  rw [if_pos hp]
  apply filterMap_congr_mem
  intro s hs
  have hon : origin.name = some "Sol" := name_of_proper_sol origin hp
  by_cases hsp : s.proper = some "Sol"
  · rw [if_pos hsp, if_pos (by rw [hon, name_of_proper_sol s hsp])]
  · have hns : ¬ origin.name = s.name :=
      fun hh => hsp (hname s hs (by rw [← hh]; exact hon))
    rw [if_neg hsp, if_neg hns, distance_from_origin origin s h0 (hnn s hs)]

/-- Witness: the shortcut and the general path agree on the two-star
catalog with Sol at the reference point. -/
theorem c5_witness :
    nearby_stars 2 starsAB solS = nearby_stars_general 2 starsAB solS :=
  c5_shortcut_equivalence 2 starsAB solS rfl rfl
    (by
      intro s hs
      rcases List.mem_cons.mp hs with h | h
      · subst h; norm_num [solS]
      · rw [List.mem_singleton] at h; subst h
        show (0 : ℝ) ≤ 1.5; norm_num)
    (by
      intro s hs hn
      rcases List.mem_cons.mp hs with h | h
      · subst h; rfl
      · rw [List.mem_singleton] at h; subst h
        exact absurd hn (by decide))

/-! Adjacency membership characterization. -/

/-- C6 (amended): for an origin whose `proper` field is not "Sol", a star
is in the origin's neighbor list exactly when it is a catalog record whose
display name differs from the origin's and whose computed distance is
within the threshold; for an origin whose `proper` field is "Sol", the
criterion is instead that the candidate's `proper` field is not "Sol" and
its catalog-supplied distance is within the threshold. -/
theorem c6_adjacency (jp : ℝ) (stars : List Star) (a b : Star) :
    (¬ a.proper = some "Sol" →
      (b ∈ (nearby_stars jp stars a).map Prod.snd ↔
        b ∈ stars ∧ ¬ a.name = b.name ∧ distance a b ≤ jp)) ∧
    (a.proper = some "Sol" →
      (b ∈ (nearby_stars jp stars a).map Prod.snd ↔
        b ∈ stars ∧ ¬ b.proper = some "Sol" ∧ b.dist ≤ jp)) := by
  constructor
  · intro hp
    unfold nearby_stars
    rw [if_neg hp]
    simp only [List.mem_map, List.mem_filterMap]
    constructor
    · rintro ⟨p, ⟨s, hs, hfs⟩, hpb⟩
      by_cases h1 : a.name = s.name
      · rw [if_pos h1] at hfs; exact absurd hfs (by simp)
      · rw [if_neg h1] at hfs
        by_cases h2 : distance a s ≤ jp
        · rw [if_pos h2] at hfs
          have hp2 : p = (distance a s, s) := (Option.some.inj hfs).symm
          subst hp2
          dsimp only at hpb
          subst hpb
          exact ⟨hs, h1, h2⟩
        · rw [if_neg h2] at hfs; exact absurd hfs (by simp)
    · rintro ⟨hb, hn, hd⟩
      exact ⟨(distance a b, b), ⟨b, hb, by rw [if_neg hn, if_pos hd]⟩, rfl⟩
  · intro hp
    unfold nearby_stars
    rw [if_pos hp]
    simp only [List.mem_map, List.mem_filterMap]
    constructor
    · rintro ⟨p, ⟨s, hs, hfs⟩, hpb⟩
      by_cases h1 : s.proper = some "Sol"
      · rw [if_pos h1] at hfs; exact absurd hfs (by simp)
      · rw [if_neg h1] at hfs
        by_cases h2 : s.dist ≤ jp
        · rw [if_pos h2] at hfs
          have hp2 : p = (s.dist, s) := (Option.some.inj hfs).symm
          subst hp2
          dsimp only at hpb
          subst hpb
          exact ⟨hs, h1, h2⟩
        · rw [if_neg h2] at hfs; exact absurd hfs (by simp)
    · rintro ⟨hb, hn, hd⟩
      exact ⟨(b.dist, b), ⟨b, hb, by rw [if_neg hn, if_pos hd]⟩, rfl⟩

/-- C6 is false as stated: two distinct catalog records sharing the display
name "X" are at computed distance 0 ≤ 2, yet neither appears in the
other's neighbor list, because exclusion is by display-name equality
rather than record identity. -/
theorem c6_counterexample :
    aX ≠ bX ∧ bX ∈ [aX, bX] ∧ distance aX bX ≤ 2 ∧
      bX ∉ (nearby_stars 2 [aX, bX] aX).map Prod.snd := by
  refine ⟨?_, by simp, ?_, ?_⟩
  · intro h
    have h2 : aX.id = bX.id := by rw [h]
    simp [aX, bX] at h2
  · rw [distance_coincident aX bX rfl rfl]
    show |(1 : ℝ) - 1| ≤ 2
    norm_num
  · rw [nbX]
    simp

/-- Witness instances of the membership characterization: Sol is in B's
neighbor list (general branch) and B is in Sol's (shortcut branch) on the
section-8 catalog. -/
theorem c6_witness :
    solS ∈ (nearby_stars 2 threeStars bS).map Prod.snd ∧
    bS ∈ (nearby_stars 2 threeStars solS).map Prod.snd := by
  constructor
  · refine ((c6_adjacency 2 threeStars bS solS).1 (by decide)).mpr
      ⟨by simp [threeStars], by decide, ?_⟩
    rw [dist_b_sol]; norm_num
  · refine ((c6_adjacency 2 threeStars solS bS).2 rfl).mpr
      ⟨by simp [threeStars], by decide, ?_⟩
    show (1.5 : ℝ) ≤ 2; norm_num

/-! Zero-distance characterization. -/

/-- Distance vanishes on identical (ra, dec, dist) triples. -/
theorem distance_zero_of_same (u v : Star) (h1 : u.ra = v.ra)
    (h2 : u.dec = v.dec) (h3 : u.dist = v.dist) : distance u v = 0 := by
  rw [distance_coincident u v h1 h2, h3, sub_self, abs_zero]

/-- C7 (amended): identical (ra, dec, dist) inputs give distance 0, and in
particular `distance a a = 0`; the converse implication of the claim is
refuted by the pole counterexample. -/
theorem c7_zero_distance (a b : Star) :
    (a.ra = b.ra → a.dec = b.dec → a.dist = b.dist → distance a b = 0) ∧
    distance a a = 0 :=
  ⟨fun h1 h2 h3 => distance_zero_of_same a b h1 h2 h3,
    distance_zero_of_same a a rfl rfl rfl⟩

/-- Witness: the two same-coordinate records are at distance 0. -/
theorem c7_witness : distance aX bX = 0 :=
  (c7_zero_distance aX bX).1 rfl rfl rfl

/-- C7 is false as stated: two stars at the celestial pole with different
right ascensions and equal catalog distance have computed distance 0
although their (ra, dec, dist) triples differ. -/
theorem c7_counterexample :
    distance poleA poleB = 0 ∧ ¬ poleA.ra = poleB.ra := by
  constructor
  · simp only [distance, poleA, poleB]
    rw [radians_ninety]
    norm_num [Real.sin_pi_div_two, Real.cos_pi_div_two]
  · simp only [poleA, poleB]
    norm_num

/-! The section-8 point-to-point scenario. -/

theorem find3_sol :
    threeStars.find? (fun s => s.name == some "Sol") = some solS := rfl

theorem find3_b :
    threeStars.find? (fun s => s.name == some "B") = some bS := rfl

theorem find3_c :
    threeStars.find? (fun s => s.name == some "C") = some cS := rfl

theorem threeNbrs_sol : threeNbrs solS = [(1.5, bS), (1.5, cS)] := nb3_sol

theorem threeNbrs_b : threeNbrs bS = [(1.5, solS)] := nb3_b

theorem threeNbrs_c : threeNbrs cS = [(1.5, solS)] := nb3_c

/-- C1: on the section-8 catalog the point-to-point search as written
raises AttributeError as soon as it iterates Sol's non-empty list of
`(distance, star)` tuples (the loop variable is never unpacked), instead
of returning the claimed path; with the evident tuple unpacking restored,
the search returns exactly the claimed paths `["Sol", "C"]` and
`["B", "Sol", "C"]`, trying neighbors in list order with a copied visited
set and prefixing the origin. -/
theorem c1_point_to_point :
    star_path threeStars threeNbrs "Sol" "C" = .error .attributeError ∧
    star_path_fixed threeStars threeNbrs 4 "Sol" "C" =
      .ok (some [some "Sol", some "C"]) ∧
    star_path_fixed threeStars threeNbrs 4 "B" "C" =
      .ok (some [some "B", some "Sol", some "C"]) := by
  refine ⟨?_, ?_, ?_⟩
  · unfold star_path
    rw [find3_sol, find3_c]
    show (explore_path threeNbrs solS cS []).map
      (Option.map (List.map Star.name)) = .error .attributeError
    unfold explore_path
    rw [if_neg (by decide), threeNbrs_sol]
    rfl
  · unfold star_path_fixed
    rw [find3_sol, find3_c]
    show Except.ok ((explore_path_fixed threeNbrs 4 solS cS []).map
      (List.map Star.name)) = .ok (some [some "Sol", some "C"])
    rw [show (4 : ℕ) = 3 + 1 from rfl]
    simp [show (3 : ℕ) = 2 + 1 from rfl, show (2 : ℕ) = 1 + 1 from rfl,
      explore_path_fixed_succ, findSome?_cons_eq, threeNbrs_sol, threeNbrs_b,
      threeNbrs_c, solS_name, bS_name, cS_name, List.insert]
  · unfold star_path_fixed
    rw [find3_b, find3_c]
    show Except.ok ((explore_path_fixed threeNbrs 4 bS cS []).map
      (List.map Star.name)) = .ok (some [some "B", some "Sol", some "C"])
    rw [show (4 : ℕ) = 3 + 1 from rfl]
    simp [show (3 : ℕ) = 2 + 1 from rfl, show (2 : ℕ) = 1 + 1 from rfl,
      explore_path_fixed_succ, findSome?_cons_eq, threeNbrs_sol, threeNbrs_b,
      threeNbrs_c, solS_name, bS_name, cS_name, List.insert]

/-! Star-record construction. -/

/-- Construction errors happen exactly at unrecognized field names. -/
theorem star_init_error_iff : ∀ (kwargs : List (String × String)),
    (∃ e, star_init kwargs = .error e) ↔
      ∃ kv ∈ kwargs, valid_keys.contains kv.1 = false := by
  intro kwargs
  induction kwargs with
  | nil => simp [star_init]
  | cons kv rest ih =>
    show (∃ e, (if valid_keys.contains kv.1 then
        match star_init rest with
        | Except.ok fields =>
          (Except.ok ((kv.1, init_field kv.1 kv.2) :: fields) :
            Except Err (List (String × Value)))
        | Except.error e2 => Except.error e2
      else Except.error Err.invalidInput) = Except.error e) ↔ _
    by_cases hk : valid_keys.contains kv.1
    · rw [if_pos hk]
      cases e2 : star_init rest with
      | ok fields =>
        simp only [List.mem_cons]
        constructor
        · rintro ⟨e, he⟩; simp at he
        · rintro ⟨kv2, hkv2, hbad⟩
          rcases hkv2 with h | h
          · subst h; rw [hk] at hbad; simp at hbad
          · rcases ih.mpr ⟨kv2, h, hbad⟩ with ⟨e, he⟩
            rw [e2] at he; simp at he
      | error err =>
        simp only [List.mem_cons]
        constructor
        · intro _
          rcases ih.mp ⟨err, e2⟩ with ⟨kv2, h2, hbad⟩
          exact ⟨kv2, Or.inr h2, hbad⟩
        · intro _; exact ⟨err, rfl⟩
    · rw [if_neg hk]
      simp only [List.mem_cons]
      constructor
      · intro _
        exact ⟨kv, Or.inl rfl, by simpa using hk⟩
      · intro _
        exact ⟨.invalidInput, rfl⟩

/-- C3 (amended): constructing a star record fails exactly when a supplied
field name is outside the recognized field set; identity fields are kept
as opaque strings; a string for a numeric field that cannot be parsed is
kept as the string (no error — the ValueError is swallowed). -/
theorem c3_construction (kwargs : List (String × String)) :
    ((∃ e, star_init kwargs = .error e) ↔
      ∃ kv ∈ kwargs, valid_keys.contains kv.1 = false) ∧
    (∀ k v, str_keys.contains k = true → init_field k v = .str v) :=
  ⟨star_init_error_iff kwargs,
    fun k v hk => by unfold init_field; rw [if_pos hk]⟩

/-- Witness: an identity field is kept verbatim, and an unrecognized field
name is exactly what makes construction fail. -/
theorem c3_witness :
    init_field "proper" "Sol" = Value.str "Sol" ∧
    (∃ kv ∈ [(("zz" : String), ("1" : String))],
      valid_keys.contains kv.1 = false) :=
  ⟨(c3_construction []).2 "proper" "Sol" rfl,
    (c3_construction [("zz", "1")]).1.mp ⟨.invalidInput, rfl⟩⟩

/-- C3 is false as stated: a non-numeric string supplied for the numeric
field `ra` does not fail construction — the ValueError is swallowed and
the string is stored unchanged. -/
theorem c3_counterexample :
    star_init [("ra", "abc")] = .ok [("ra", Value.str "abc")] := rfl

/-! Display-name derivation. -/

/-- The source's first-truthy-field loop agrees with the
first-non-empty-field-then-collapse description. -/
theorem findSome?_name_eq : ∀ (l : List (Option String)),
    (l.findSome? fun v =>
        v.bind fun w => if w = "" then none else some (collapse w)) =
      (match l.find? (fun v => !(v.getD "" == "")) with
       | some v => some (collapse (v.getD ""))
       | none => none) := by
  intro l
  induction l with
  | nil => rfl
  | cons v vs ih =>
    cases v with
    | none =>
      rw [findSome?_cons_eq, List.find?_cons_of_neg _ (by simp)]
      exact ih
    | some w =>
      by_cases hw : w = ""
      · subst hw
        rw [findSome?_cons_eq, List.find?_cons_of_neg _ (by simp)]
        exact ih
      · rw [findSome?_cons_eq, List.find?_cons_of_pos _ (by simp [hw])]
        simp only [Option.some_bind]
        rw [if_neg hw]
        rfl

/-- C9: the derived display name equals the first non-empty preference
field with whitespace collapsed, is absent when all six fields are empty
or missing, and two records with all-empty identity fields share the
absent display name. -/
theorem c9_display_name (s t : Star) :
    s.name = name_spec s ∧
    (identity_empty s = true → s.name = none) ∧
    (identity_empty s = true → identity_empty t = true →
      s.name = t.name) := by
  have base : ∀ u : Star, u.name = name_spec u := by
    intro u
    unfold Star.name name_spec
    exact findSome?_name_eq u.preference_values
  have empt : ∀ u : Star, identity_empty u = true → u.name = none := by
    intro u hu
    rw [base u]
    unfold name_spec
    have hfind : u.preference_values.find? (fun v => !(v.getD "" == "")) =
        none := by
      apply List.find?_eq_none.mpr
      intro v hv
      have h2 := List.all_eq_true.mp hu v hv
      simp [h2]
    rw [hfind]
  exact ⟨base s, empt s, fun hs ht => by rw [empt s hs, empt t ht]⟩

/-- Witness: a record with no identity fields has the absent display name
and shares it with another identity-empty record. -/
theorem c9_witness :
    emptyStar.name = none ∧ emptyStar.name = emptyStar2.name :=
  ⟨(c9_display_name emptyStar emptyStar2).2.1 rfl,
    (c9_display_name emptyStar emptyStar2).2.2 rfl rfl⟩

/-- Witness: concrete failed lookups on one-star catalogs. -/
theorem c4_witness :
    star_path [solS] nbE "X" "Y" = .error .notFound ∧
    star_path [solS] nbE "Sol" "X" = .error .notFound ∧
    star_paths 2 [bS] 3 = .error .notFound :=
  ⟨(c4_not_found 2 3 [solS] [solS] [bS] nbE nbE "X" "Y" "Sol" "X").1
      (by intro s hs; rw [List.mem_singleton] at hs; subst hs; decide),
    (c4_not_found 2 3 [solS] [solS] [bS] nbE nbE "X" "Y" "Sol" "X").2.1
      (by intro s hs; rw [List.mem_singleton] at hs; subst hs; decide),
    (c4_not_found 2 3 [solS] [solS] [bS] nbE nbE "X" "Y" "Sol" "X").2.2
      (by intro s hs; rw [List.mem_singleton] at hs; subst hs; decide)⟩

end Astrogate
